import Mathlib

/-!
Verification of the duro-operator convergence core against its
natural-language specification.

The Go sources embedded here:
  * `pkg/assembler` — entry derivation, category ranking, three-level sort,
    canonical JSON serialization (`json.MarshalIndent` with two-space indent
    and Go's default HTML escaping);
  * `controllers/dashboardapp_controller.go` — `computeHash` (SHA-256 hex),
    `updateAppsConfig` (create / hash-gated update of the apps ConfigMap)
    and `Reconcile` (one convergence pass);
  * `pkg/errors` — the error taxonomy and `ShouldRetry`.

External I/O (the Kubernetes client) is modelled by explicit state passing
over a store plus fault-injection parameters: each fallible client call
takes an `Option GoError` saying whether that call fails in this pass.
Machine integers are modelled as `Int` (Go `int`), 32-bit words in SHA-256
as `Nat` reduced mod 2^32.
-/

namespace Duro

/-! ### SHA-256 (crypto/sha256), over byte lists -/

/-- Truncate to a 32-bit word, as Go's `uint32` arithmetic does. -/
def w32 (n : Nat) : Nat := n % 4294967296

/-- Rotate a 32-bit word right by `n` bits. -/
def rotr (n x : Nat) : Nat := w32 ((x >>> n) ||| (x <<< (32 - n)))

def shaCh (x y z : Nat) : Nat := (x &&& y) ^^^ ((x ^^^ 4294967295) &&& z)

def shaMaj (x y z : Nat) : Nat := (x &&& y) ^^^ (x &&& z) ^^^ (y &&& z)

def bigSigma0 (x : Nat) : Nat := rotr 2 x ^^^ rotr 13 x ^^^ rotr 22 x

def bigSigma1 (x : Nat) : Nat := rotr 6 x ^^^ rotr 11 x ^^^ rotr 25 x

def smallSigma0 (x : Nat) : Nat := rotr 7 x ^^^ rotr 18 x ^^^ (x >>> 3)

def smallSigma1 (x : Nat) : Nat := rotr 17 x ^^^ rotr 19 x ^^^ (x >>> 10)

/-- The SHA-256 round constants (fractional parts of the cube roots of the
first 64 primes; FIPS 180-4 values, written in decimal). -/
def shaK : List Nat :=
  [1116352408, 1899447441, 3049323471, 3921009573, 961987163, 1508970993,
   2453635748, 2870763221, 3624381080, 310598401, 607225278, 1426881987,
   1925078388, 2162078206, 2614888103, 3248222580, 3835390401, 4022224774,
   264347078, 604807628, 770255983, 1249150122, 1555081692, 1996064986,
   2554220882, 2821834349, 2952996808, 3210313671, 3336571891, 3584528711,
   113926993, 338241895, 666307205, 773529912, 1294757372, 1396182291,
   1695183700, 1986661051, 2177026350, 2456956037, 2730485921, 2820302411,
   3259730800, 3345764771, 3516065817, 3600352804, 4094571909, 275423344,
   430227734, 506948616, 659060556, 883997877, 958139571, 1322822218,
   1537002063, 1747873779, 1955562222, 2024104815, 2227730452, 2361852424,
   2428436474, 2756734187, 3204031479, 3329325298]

/-- The SHA-256 initial hash state (fractional parts of the square roots of
the first 8 primes; FIPS 180-4 values, written in decimal). -/
def shaH0 : List Nat :=
  [1779033703, 3144134277, 1013904242, 2773480762,
   1359893119, 2600822924, 528734635, 1541459225]

/-- Big-endian 4-byte encoding of a 32-bit word. -/
def beBytes4 (w : Nat) : List Nat := [w >>> 24 % 256, w >>> 16 % 256, w >>> 8 % 256, w % 256]

/-- Big-endian 8-byte encoding of a 64-bit length. -/
def beBytes8 (n : Nat) : List Nat :=
  [n >>> 56 % 256, n >>> 48 % 256, n >>> 40 % 256, n >>> 32 % 256,
   n >>> 24 % 256, n >>> 16 % 256, n >>> 8 % 256, n % 256]

/-- Group a byte list into big-endian 32-bit words. -/
def toWords : List Nat → List Nat
  | b0 :: b1 :: b2 :: b3 :: rest =>
      (((b0 <<< 24) ||| (b1 <<< 16) ||| (b2 <<< 8) ||| b3)) :: toWords rest
  | _ => []

def wAt (l : List Nat) (i : Nat) : Nat := (l.get? i).getD 0

/-- One message-schedule extension step: append `W[i]` for `i = acc.length`. -/
def extendOnce (acc : List Nat) : List Nat :=
  let i := acc.length
  acc ++ [w32 (wAt acc (i - 16) + smallSigma0 (wAt acc (i - 15)) +
               wAt acc (i - 7) + smallSigma1 (wAt acc (i - 2)))]

/-- Extend the 16 block words to the 64-entry message schedule. -/
def buildW (w16 : List Nat) : List Nat :=
  (List.range 48).foldl (fun acc _ => extendOnce acc) w16

/-- One SHA-256 compression round over the 8-word working state. -/
def compressStep (st : List Nat) (wk : Nat × Nat) : List Nat :=
  match st with
  | [a, b, c, d, e, f, g, h] =>
      let t1 := w32 (h + bigSigma1 e + shaCh e f g + wk.2 + wk.1)
      let t2 := w32 (bigSigma0 a + shaMaj a b c)
      [w32 (t1 + t2), a, b, c, w32 (d + t1), e, f, g]
  | other => other

/-- Process one 64-byte block into the running hash state. -/
def processBlock (h : List Nat) (block : List Nat) : List Nat :=
  let w := buildW (toWords block)
  let st := (w.zip shaK).foldl compressStep h
  (h.zip st).map (fun p => w32 (p.1 + p.2))

/-- Split a byte list into 64-byte chunks (structural recursion on a fuel
bound, so it reduces in the kernel). -/
def chunks64Aux : Nat → List Nat → List (List Nat)
  | 0, _ => []
  | _ + 1, [] => []
  | fuel + 1, l => l.take 64 :: chunks64Aux fuel (l.drop 64)

/-- Split a byte list into 64-byte chunks. -/
def chunks64 (l : List Nat) : List (List Nat) := chunks64Aux l.length l

/-- SHA-256 padding: `0x80`, zeros to 56 mod 64, then the bit length big-endian. -/
def padMessage (msg : List Nat) : List Nat :=
  let len := msg.length
  msg ++ [0x80] ++ List.replicate ((64 + 56 - ((len + 1) % 64)) % 64) 0 ++ beBytes8 (len * 8)

/-- SHA-256 of a byte list, as 32 output bytes. -/
def sha256Bytes (msg : List Nat) : List Nat :=
  let hs := (chunks64 (padMessage msg)).foldl processBlock shaH0
  (hs.map beBytes4).flatten

def hexDigit (n : Nat) : Char := if n < 10 then Char.ofNat (48 + n) else Char.ofNat (87 + n)

def byteHex (b : Nat) : String := String.mk [hexDigit (b / 16), hexDigit (b % 16)]

def bytesToHex (bs : List Nat) : String := String.join (bs.map byteHex)

/-- UTF-8 encoding of one character, as Go's `[]byte(string)` conversion produces. -/
def utf8Char (c : Char) : List Nat :=
  let n := c.toNat
  if n < 0x80 then [n]
  else if n < 0x800 then [0xc0 ||| (n >>> 6), 0x80 ||| (n &&& 0x3f)]
  else if n < 0x10000 then
    [0xe0 ||| (n >>> 12), 0x80 ||| ((n >>> 6) &&& 0x3f), 0x80 ||| (n &&& 0x3f)]
  else
    [0xf0 ||| (n >>> 18), 0x80 ||| ((n >>> 12) &&& 0x3f),
     0x80 ||| ((n >>> 6) &&& 0x3f), 0x80 ||| (n &&& 0x3f)]

/-- UTF-8 bytes of a string (Go `[]byte(s)`). -/
def utf8Bytes (s : String) : List Nat := (s.toList.map utf8Char).flatten

/-- `computeHash` from `dashboardapp_controller.go`: lowercase hex of the
SHA-256 digest of the string's bytes. -/
def computeHash (s : String) : String := bytesToHex (sha256Bytes (utf8Bytes s))

/-! ### Data model (`api/v1alpha1`) -/

/-- `DashboardAppSpec`: the declared fields of one dashboard application.
Go `int` is modelled as `Int`. -/
structure DashboardAppSpec where
  name : String
  url : String
  category : String
  icon : String
  groups : List String
  priority : Int
deriving DecidableEq

/-- `DashboardAppStatus`: the observed fields written by the engine.
`metav1.Time` is modelled as a `Nat` timestamp; the `nil` pointer as `none`. -/
structure DashboardAppStatus where
  ready : Bool
  lastSyncedAt : Option Nat
deriving DecidableEq

/-- `DashboardApp`: metadata name plus spec and status. -/
structure DashboardApp where
  name : String
  spec : DashboardAppSpec
  status : DashboardAppStatus
deriving DecidableEq

/-! ### Assembler (`pkg/assembler`) -/

/-- `AppEntry`: one element of the output JSON array. -/
structure AppEntry where
  id : String
  name : String
  url : String
  category : String
  icon : String
  groups : List String
  priority : Int
deriving DecidableEq

/-- `categoryOrder` is a Go map; indexing it with a key that is absent
yields the zero value `0`. `categoryOrderFn c` is `categoryOrder[c]`. -/
def categoryOrderFn (c : String) : Nat :=
  if c = "media" then 0
  else if c = "ai" then 1
  else if c = "productivity" then 2
  else if c = "development" then 3
  else if c = "admin" then 4
  else 0

/-- The spec's fixed enumerated category set. -/
def knownCategories : List String := ["media", "ai", "productivity", "development", "admin"]

/-- Go's `cmp.Compare`: `-1` when `x < y`, `+1` when `x > y`, else `0`.
Instantiated at `Nat` (category ranks), `Int` (priorities) and `String`
(names; Go compares strings byte-wise, and UTF-8 byte order agrees with
code-point order, which is Lean's `String` order). -/
def cmpCompare {α : Type} [LinearOrder α] (x y : α) : Ordering :=
  if x < y then Ordering.lt else if y < x then Ordering.gt else Ordering.eq

/-- The comparator passed to `slices.SortFunc` in `Assemble`: category rank,
then priority, then name. -/
def entryCmp (a b : AppEntry) : Ordering :=
  match cmpCompare (categoryOrderFn a.category) (categoryOrderFn b.category) with
  | Ordering.eq =>
      match cmpCompare a.priority b.priority with
      | Ordering.eq => cmpCompare a.name b.name
      | c => c
  | c => c

/-- The non-strict order induced by `entryCmp` (`cmp(a,b) <= 0`). -/
def entryLE (a b : AppEntry) : Bool := decide (entryCmp a b ≠ Ordering.gt)

/-- The per-resource entry derivation in the loop body of `Assemble`:
copy declared fields, default priority `0` to `100`, id = metadata name. -/
def toEntry (app : DashboardApp) : AppEntry :=
  let priority := if app.spec.priority = 0 then 100 else app.spec.priority
  { id := app.name
    name := app.spec.name
    url := app.spec.url
    category := app.spec.category
    icon := app.spec.icon
    groups := app.spec.groups
    priority := priority }

/-- Derivation plus sort. `slices.SortFunc` is an unstable comparison sort;
we model it with insertion sort, which satisfies the same observable
contract (the output is a permutation of the input, sorted with respect to
the comparator) and reduces by computation. -/
def assembleEntries (apps : List DashboardApp) : List AppEntry :=
  List.insertionSort (fun a b => entryLE a b = true) (apps.map toEntry)

/-! #### `json.MarshalIndent(entries, "", "  ")` -/

/-- One character of a Go JSON string literal, with `encoding/json`'s default
escaping: quote, backslash, the named control escapes, `\u00XX` for other
control characters, HTML escaping of `<`, `>`, `&`, and ` `/` `. -/
def jsonEscapeChar (c : Char) : String :=
  if c = '"' then "\\\""
  else if c = '\\' then "\\\\"
  else if c = '\n' then "\\n"
  else if c = '\r' then "\\r"
  else if c = '\t' then "\\t"
  else if c.toNat < 0x20 then
    "\\u00" ++ String.mk [hexDigit (c.toNat / 16), hexDigit (c.toNat % 16)]
  else if c = '<' then "\\u003c"
  else if c = '>' then "\\u003e"
  else if c = '&' then "\\u0026"
  else if c.toNat = 0x2028 then "\\u2028"
  else if c.toNat = 0x2029 then "\\u2029"
  else String.mk [c]

/-- A Go JSON string literal. -/
def jsonString (s : String) : String :=
  "\"" ++ String.join (s.toList.map jsonEscapeChar) ++ "\""

/-- The `groups` array at indent depth 2 (elements at depth 3), as
`MarshalIndent` renders a `[]string` field. -/
def marshalGroups (gs : List String) : String :=
  match gs with
  | [] => "[]"
  | _ => "[\n" ++ String.intercalate ",\n" (gs.map (fun g => "      " ++ jsonString g)) ++
         "\n    ]"

/-- One `AppEntry` object at indent depth 1, fields in declaration order. -/
def marshalEntry (e : AppEntry) : String :=
  "  \x7b\n    \"id\": " ++ jsonString e.id ++
  ",\n    \"name\": " ++ jsonString e.name ++
  ",\n    \"url\": " ++ jsonString e.url ++
  ",\n    \"category\": " ++ jsonString e.category ++
  ",\n    \"icon\": " ++ jsonString e.icon ++
  ",\n    \"groups\": " ++ marshalGroups e.groups ++
  ",\n    \"priority\": " ++ toString e.priority ++
  "\n  \x7d"

/-- `json.MarshalIndent` of the entry slice (the slice is created non-nil,
so an empty collection renders as `[]`). -/
def marshalEntries (es : List AppEntry) : String :=
  match es with
  | [] => "[]"
  | _ => "[\n" ++ String.intercalate ",\n" (es.map marshalEntry) ++ "\n]"

/-- `AssemblyResult`: the sorted entries and their canonical document. -/
structure AssemblyResult where
  entries : List AppEntry
  appsJSON : String
deriving DecidableEq

/-- `Assemble`: derive, sort, serialize. The Go serialization error branch is
unreachable for this entry type (no unsupported values), so the model is
total. -/
def Assemble (apps : List DashboardApp) : AssemblyResult :=
  let entries := assembleEntries apps
  { entries := entries, appsJSON := marshalEntries entries }

/-! ### Error taxonomy (`pkg/errors`) -/

/-- `ErrorType` from `pkg/errors`. -/
inductive ErrorType
  | transient
  | permanent
  | config
deriving DecidableEq

/-- A Go `error` value as the engine can observe it: either an
`*OperatorError` (with its type tag) or some other error type (a raw client
error, for instance). -/
inductive GoError
  | opError (type_ : ErrorType) (message : String)
  | external (message : String)
deriving DecidableEq

/-- `ShouldRetry`: an `*OperatorError` is retried iff its type is
`Transient`; any other error type defaults to retryable. -/
def ShouldRetry : GoError → Bool
  | GoError.opError t _ => t = ErrorType.transient
  | GoError.external _ => true

/-! ### ConfigMap store model -/

/-- String-keyed map, modelled extensionally as an association list with
replace-on-insert semantics. -/
def lookupA (l : List (String × String)) (k : String) : Option String :=
  (l.find? (fun p => p.1 = k)).map Prod.snd

/-- `m[k] = v` on a Go map: replace the binding of `k` if present (first
occurrence, which is the one `lookupA` sees), else append it. -/
def insertA (l : List (String × String)) (k v : String) : List (String × String) :=
  match l with
  | [] => [(k, v)]
  | p :: rest => if p.1 = k then (k, v) :: rest else p :: insertA rest k v

/-- A `corev1.ConfigMap` as the engine uses it. -/
structure ConfigMap where
  name : String
  ns : String
  labels : List (String × String)
  annotations : List (String × String)
  data : List (String × String)
deriving DecidableEq

/-- The managed-by label key written by the engine. -/
def managedByKey : String := "app.kubernetes.io/managed-by"

/-- The config-hash annotation key written by the engine. -/
def configHashKey : String := "dashboard.homelab.io/config-hash"

/-- The ConfigMap built on the create path of `updateAppsConfig`. -/
def mkConfigMap (cmName cmNs appsJSON configHash : String) : ConfigMap :=
  { name := cmName
    ns := cmNs
    labels := [(managedByKey, "duro-operator")]
    annotations := [(configHashKey, configHash)]
    data := [("apps.json", appsJSON)] }

/-- What `updateAppsConfig` did to the artifact object. -/
inductive CMWriteAction
  | created
  | updated
  | skipped
deriving DecidableEq

/-- Number of store writes an action performs. -/
def writeCount : CMWriteAction → Nat
  | CMWriteAction.created => 1
  | CMWriteAction.updated => 1
  | CMWriteAction.skipped => 0

/-- `updateAppsConfig`: compute the hash of the fresh document, read the
existing artifact, then create it, skip on hash match, or overwrite body,
managed-by label and hash annotation together.

`existing?` is the store's current artifact (`none` = the Get reports
not-found); `getErr` injects a non-not-found Get failure and `writeErr` a
Create/Update failure. Returns the store's artifact after the call, the
action taken, and the returned error. -/
def updateAppsConfig (cmName cmNs : String) (existing? : Option ConfigMap)
    (getErr writeErr : Option GoError) (appsJSON : String) :
    Option ConfigMap × CMWriteAction × Option GoError :=
  let configHash := computeHash appsJSON
  match getErr with
  | some e => (existing?, CMWriteAction.skipped, some e)
  | none =>
    match existing? with
    | none =>
      match writeErr with
      | some e => (none, CMWriteAction.skipped, some e)
      | none => (some (mkConfigMap cmName cmNs appsJSON configHash), CMWriteAction.created, none)
    | some existing =>
      let existingHash := (lookupA existing.annotations configHashKey).getD ""
      if existingHash = configHash then (some existing, CMWriteAction.skipped, none)
      else
        match writeErr with
        | some e => (some existing, CMWriteAction.skipped, some e)
        | none =>
          let cm :=
            { existing with
              data := [("apps.json", appsJSON)]
              labels := insertA existing.labels managedByKey "duro-operator"
              annotations := insertA existing.annotations configHashKey configHash }
          (some cm, CMWriteAction.updated, none)

/-! ### Convergence engine (`Reconcile`) -/

/-- The store the engine reads and writes: all DashboardApps cluster-wide
and the apps ConfigMap (if it exists). -/
structure StoreState where
  apps : List DashboardApp
  cm : Option ConfigMap
deriving DecidableEq

/-- Fault injection for one pass: which external calls fail and with what
error. `statusErr name` is the failure, if any, of the status update of the
resource with that metadata name. -/
structure Faults where
  listErr : Option GoError
  assembleErr : Option GoError
  getErr : Option GoError
  cmWriteErr : Option GoError
  statusErr : String → Option GoError

/-- A pass with no injected failures. -/
def noFaults : Faults :=
  { listErr := none, assembleErr := none, getErr := none, cmWriteErr := none
    statusErr := fun _ => none }

/-- The observable outcome of one `Reconcile` invocation: the store after
the pass, what happened to the artifact, which status updates were attempted
and which succeeded, and the returned `(ctrl.Result, error)` pair
(`requeueAfter` in seconds, `0` meaning no requeue). -/
structure PassResult where
  apps : List DashboardApp
  cm : Option ConfigMap
  cmAction : CMWriteAction
  statusAttempted : List String
  statusSucceeded : List String
  requeueAfter : Nat
  err : Option GoError
deriving DecidableEq

/-- The status value written in the loop of `Reconcile`. -/
def syncedStatus (now : Nat) : DashboardAppStatus :=
  { ready := true, lastSyncedAt := some now }

/-- `Reconcile`: list all DashboardApps; empty collection is a no-op;
assemble; update the apps ConfigMap; then attempt a status update on every
resource, collecting failures. Assembly failures are classified with
`ShouldRetry` (transient: 30 s requeue; otherwise the error is returned);
a ConfigMap update failure always requeues after 30 s; status failures
requeue after 10 s. -/
def Reconcile (cmName cmNs : String) (st : StoreState) (f : Faults) (now : Nat) :
    PassResult :=
  match f.listErr with
  | some _ =>
      { apps := st.apps, cm := st.cm, cmAction := CMWriteAction.skipped
        statusAttempted := [], statusSucceeded := [], requeueAfter := 0
        err := some (GoError.opError ErrorType.transient "failed to list DashboardApps") }
  | none =>
    if st.apps.isEmpty then
      { apps := st.apps, cm := st.cm, cmAction := CMWriteAction.skipped
        statusAttempted := [], statusSucceeded := [], requeueAfter := 0, err := none }
    else
      match f.assembleErr with
      | some e =>
          if ShouldRetry e then
            { apps := st.apps, cm := st.cm, cmAction := CMWriteAction.skipped
              statusAttempted := [], statusSucceeded := [], requeueAfter := 30, err := none }
          else
            { apps := st.apps, cm := st.cm, cmAction := CMWriteAction.skipped
              statusAttempted := [], statusSucceeded := [], requeueAfter := 0, err := some e }
      | none =>
        match updateAppsConfig cmName cmNs st.cm f.getErr f.cmWriteErr
            (Assemble st.apps).appsJSON with
        | (cm, _, some _) =>
            { apps := st.apps, cm := cm, cmAction := CMWriteAction.skipped
              statusAttempted := [], statusSucceeded := [], requeueAfter := 30, err := none }
        | (cm, action, none) =>
            let apps := st.apps.map (fun a =>
              if (f.statusErr a.name).isSome then a else { a with status := syncedStatus now })
            let succeeded := (st.apps.filter (fun a => (f.statusErr a.name).isNone)).map
              (fun a => a.name)
            let failures := (st.apps.filter (fun a => (f.statusErr a.name).isSome)).map
              (fun a => a.name)
            { apps := apps, cm := cm, cmAction := action
              statusAttempted := st.apps.map (fun a => a.name)
              statusSucceeded := succeeded
              requeueAfter := if failures.isEmpty then 0 else 10
              err := none }

/-- The store after a pass. -/
def storeAfter (r : PassResult) : StoreState := { apps := r.apps, cm := r.cm }

/-! ### Helper lemmas: the comparator -/

theorem cmpCompare_eq_lt {α : Type} [LinearOrder α] {x y : α} :
    cmpCompare x y = Ordering.lt ↔ x < y := by
  unfold cmpCompare
  split_ifs with h1 h2
  · simp [h1]
  · simp [h1]
  · simp [h1]

theorem cmpCompare_eq_gt {α : Type} [LinearOrder α] {x y : α} :
    cmpCompare x y = Ordering.gt ↔ y < x := by
  unfold cmpCompare
  split_ifs with h1 h2
  · simp [lt_asymm h1]
  · simp [h2]
  · simp [h2]

theorem cmpCompare_eq_eq {α : Type} [LinearOrder α] {x y : α} :
    cmpCompare x y = Ordering.eq ↔ x = y := by
  unfold cmpCompare
  split_ifs with h1 h2
  · simp [ne_of_lt h1]
  · simp [(ne_of_lt h2).symm]
  · simp [le_antisymm (le_of_not_lt h2) (le_of_not_lt h1)]

/-- `entryLE` unfolded into the three-level lexicographic order the spec
describes: category rank, then priority, then name. -/
theorem entryLE_iff (a b : AppEntry) :
    entryLE a b = true ↔
      (categoryOrderFn a.category < categoryOrderFn b.category ∨
       (categoryOrderFn a.category = categoryOrderFn b.category ∧
        (a.priority < b.priority ∨ (a.priority = b.priority ∧ a.name ≤ b.name)))) := by
  unfold entryLE entryCmp
  rcases lt_trichotomy (categoryOrderFn a.category) (categoryOrderFn b.category) with h | h | h
  · rw [cmpCompare_eq_lt.mpr h]
    simp [h]
  · rw [cmpCompare_eq_eq.mpr h]
    rcases lt_trichotomy a.priority b.priority with h2 | h2 | h2
    · rw [cmpCompare_eq_lt.mpr h2]
      simp [h, h2]
    · rw [cmpCompare_eq_eq.mpr h2]
      rcases lt_trichotomy a.name b.name with h3 | h3 | h3
      · rw [cmpCompare_eq_lt.mpr h3]
        simp [h, h2, le_of_lt h3]
      · rw [cmpCompare_eq_eq.mpr h3]
        simp [h, h2, le_of_eq h3]
      · rw [cmpCompare_eq_gt.mpr h3]
        simp [h, h2, not_le.mpr h3, lt_asymm h3]
    · rw [cmpCompare_eq_gt.mpr h2]
      simp [h, lt_asymm h2, ne_of_gt h2]
  · rw [cmpCompare_eq_gt.mpr h]
    simp [lt_asymm h, ne_of_gt h]

theorem entryLE_total (a b : AppEntry) : entryLE a b = true ∨ entryLE b a = true := by
  rw [entryLE_iff, entryLE_iff]
  rcases lt_trichotomy (categoryOrderFn a.category) (categoryOrderFn b.category) with h | h | h
  · exact Or.inl (Or.inl h)
  · rcases lt_trichotomy a.priority b.priority with h2 | h2 | h2
    · exact Or.inl (Or.inr ⟨h, Or.inl h2⟩)
    · rcases le_total a.name b.name with h3 | h3
      · exact Or.inl (Or.inr ⟨h, Or.inr ⟨h2, h3⟩⟩)
      · exact Or.inr (Or.inr ⟨h.symm, Or.inr ⟨h2.symm, h3⟩⟩)
    · exact Or.inr (Or.inr ⟨h.symm, Or.inl h2⟩)
  · exact Or.inr (Or.inl h)

theorem entryLE_trans {a b c : AppEntry}
    (hab : entryLE a b = true) (hbc : entryLE b c = true) : entryLE a c = true := by
  rw [entryLE_iff] at hab hbc ⊢
  rcases hab with h1 | ⟨h1, h1p⟩
  · rcases hbc with h2 | ⟨h2, _⟩
    · exact Or.inl (lt_trans h1 h2)
    · exact Or.inl (h2 ▸ h1)
  · rcases hbc with h2 | ⟨h2, h2p⟩
    · exact Or.inl (h1 ▸ h2)
    · refine Or.inr ⟨h1.trans h2, ?_⟩
      rcases h1p with p1 | ⟨p1, n1⟩
      · rcases h2p with p2 | ⟨p2, _⟩
        · exact Or.inl (lt_trans p1 p2)
        · exact Or.inl (p2 ▸ p1)
      · rcases h2p with p2 | ⟨p2, n2⟩
        · exact Or.inl (p1 ▸ p2)
        · exact Or.inr ⟨p1.trans p2, le_trans n1 n2⟩

/-! ### Helper lemmas: the store model -/

theorem lookupA_cons (p : String × String) (l : List (String × String)) (k : String) :
    lookupA (p :: l) k = if p.1 = k then some p.2 else lookupA l k := by
  by_cases h : p.1 = k <;> simp [lookupA, h]

theorem lookupA_insertA_self (l : List (String × String)) (k v : String) :
    lookupA (insertA l k v) k = some v := by
  induction l with
  | nil => simp [insertA, lookupA]
  | cons p rest ih =>
    by_cases h : p.1 = k
    · simp [insertA, h, lookupA_cons]
    · show lookupA (if p.1 = k then (k, v) :: rest else p :: insertA rest k v) k = some v
      rw [if_neg h, lookupA_cons, if_neg h, ih]

theorem lookupA_insertA_ne (l : List (String × String)) (k v k' : String) (h : k' ≠ k) :
    lookupA (insertA l k v) k' = lookupA l k' := by
  induction l with
  | nil => simp [insertA, lookupA, Ne.symm h]
  | cons p rest ih =>
    by_cases hp : p.1 = k
    · have hp' : p.1 ≠ k' := by rw [hp]; exact Ne.symm h
      simp [insertA, hp, lookupA_cons, Ne.symm h, hp']
    · by_cases hp' : p.1 = k'
      · simp [insertA, hp, hp', lookupA_cons, h]
      · simp [insertA, hp, hp', lookupA_cons, ih]

/-- With no injected Get/write failure, `updateAppsConfig` reports no error. -/
theorem updateAppsConfig_noFault_err (cmName cmNs : String) (existing? : Option ConfigMap)
    (appsJSON : String) :
    (updateAppsConfig cmName cmNs existing? none none appsJSON).2.2 = none := by
  cases existing? with
  | none => rfl
  | some existing =>
    unfold updateAppsConfig
    by_cases hh : (lookupA existing.annotations configHashKey).getD "" = computeHash appsJSON
    · simp [hh]
    · simp [hh]

/-- `toEntry` depends only on the metadata name and the spec, never on the
status. -/
theorem toEntry_status (a : DashboardApp) (s : DashboardAppStatus) :
    toEntry { a with status := s } = toEntry a := rfl

/-- The status loop of a pass does not change the assembled entries. -/
theorem assembleEntries_statusMap (apps : List DashboardApp)
    (p : DashboardApp → Bool) (s : DashboardAppStatus) :
    assembleEntries (apps.map (fun a => if p a then a else { a with status := s })) =
      assembleEntries apps := by
  unfold assembleEntries
  rw [List.map_map]
  have hfun : (toEntry ∘ fun a => if p a then a else { a with status := s }) = toEntry := by
    funext a
    show toEntry (if p a then a else { a with status := s }) = toEntry a
    split
    · rfl
    · rfl
  rw [hfun]

/-- A category outside the fixed enumerated set falls through every branch
of the rank lookup to the Go map zero value `0`. -/
theorem categoryOrderFn_unknown (c : String) (hc : c ∉ knownCategories) :
    categoryOrderFn c = 0 := by
  unfold categoryOrderFn
  split_ifs with h1 h2 h3 h4 h5
  · exact absurd (h1.symm ▸ (by decide : ("media" : String) ∈ knownCategories)) hc
  · exact absurd (h2.symm ▸ (by decide : ("ai" : String) ∈ knownCategories)) hc
  · exact absurd (h3.symm ▸ (by decide : ("productivity" : String) ∈ knownCategories)) hc
  · exact absurd (h4.symm ▸ (by decide : ("development" : String) ∈ knownCategories)) hc
  · exact absurd (h5.symm ▸ (by decide : ("admin" : String) ∈ knownCategories)) hc
  · rfl

/-- The assembled output is sorted with respect to `entryLE`. -/
theorem assembleEntries_sorted (apps : List DashboardApp) :
    (assembleEntries apps).Pairwise (fun x y => entryLE x y = true) := by
  haveI : IsTotal AppEntry (fun a b => entryLE a b = true) := ⟨entryLE_total⟩
  haveI : IsTrans AppEntry (fun a b => entryLE a b = true) :=
    ⟨fun _ _ _ => entryLE_trans⟩
  exact List.sorted_insertionSort (fun a b => entryLE a b = true) (apps.map toEntry)

theorem isEmpty_false_of_ne_nil {α : Type} {l : List α} (h : l ≠ []) :
    l.isEmpty = false := by
  cases l with
  | nil => exact absurd rfl h
  | cons a l => rfl

/-- After a fault-free `updateAppsConfig`, the stored artifact exists and
its hash annotation (read the way the engine reads it) equals the hash of
the document that was passed in. -/
theorem updateAppsConfig_noFault_hash (cmName cmNs : String) (existing? : Option ConfigMap)
    (appsJSON : String) :
    ∃ c : ConfigMap,
      (updateAppsConfig cmName cmNs existing? none none appsJSON).1 = some c ∧
      (lookupA c.annotations configHashKey).getD "" = computeHash appsJSON := by
  cases existing? with
  | none =>
    refine ⟨mkConfigMap cmName cmNs appsJSON (computeHash appsJSON), rfl, ?_⟩
    simp [mkConfigMap, lookupA]
  | some existing =>
    by_cases hh : (lookupA existing.annotations configHashKey).getD "" = computeHash appsJSON
    · exact ⟨existing, by simp [updateAppsConfig, hh], hh⟩
    · refine ⟨{ existing with
          data := [("apps.json", appsJSON)]
          labels := insertA existing.labels managedByKey "duro-operator"
          annotations := insertA existing.annotations configHashKey
            (computeHash appsJSON) }, by simp [updateAppsConfig, hh], ?_⟩
      simp [lookupA_insertA_self]

/-- The shape of a pass whose external calls all succeed (fault-free up to
status updates) on a nonempty collection. -/
theorem reconcile_noFault_eq (cmName cmNs : String) (st : StoreState) (f : Faults)
    (now : Nat) (hl : f.listErr = none) (ha : f.assembleErr = none)
    (hg : f.getErr = none) (hw : f.cmWriteErr = none) (hne : st.apps ≠ []) :
    Reconcile cmName cmNs st f now =
      { apps := st.apps.map (fun a => if (f.statusErr a.name).isSome then a
            else { a with status := syncedStatus now })
        cm := (updateAppsConfig cmName cmNs st.cm none none (Assemble st.apps).appsJSON).1
        cmAction := (updateAppsConfig cmName cmNs st.cm none none
          (Assemble st.apps).appsJSON).2.1
        statusAttempted := st.apps.map (fun a => a.name)
        statusSucceeded := (st.apps.filter (fun a => (f.statusErr a.name).isNone)).map
          (fun a => a.name)
        requeueAfter := if ((st.apps.filter (fun a => (f.statusErr a.name).isSome)).map
            (fun a => a.name)).isEmpty then 0 else 10
        err := none } := by
  rcases hu : updateAppsConfig cmName cmNs st.cm none none (Assemble st.apps).appsJSON
    with ⟨cm2, act2, err2⟩
  have herr := updateAppsConfig_noFault_err cmName cmNs st.cm (Assemble st.apps).appsJSON
  rw [hu] at herr
  simp only at herr
  subst herr
  have hempty := isEmpty_false_of_ne_nil hne
  unfold Reconcile
  rw [hl, ha, hg, hw]
  simp [hempty, hu]

/-! ### The claims -/

/-- C2. Sort correctness: `Assemble` outputs a permutation of the derived
entries, ordered first by category rank (with the fixed ranks media 0,
ai 1, productivity 2, development 3, admin 4), then by priority ascending,
then by name ascending; and the concrete collection
plex: media/10, gitea: development/20, openwebui: ai/10 assembles in the
order plex, openwebui, gitea. -/
theorem C2_sort_correctness :
    (∀ apps : List DashboardApp,
        (Assemble apps).entries.Perm (apps.map toEntry) ∧
        (Assemble apps).entries.Pairwise (fun x y =>
          categoryOrderFn x.category < categoryOrderFn y.category ∨
          (categoryOrderFn x.category = categoryOrderFn y.category ∧
            (x.priority < y.priority ∨ (x.priority = y.priority ∧ x.name ≤ y.name))))) ∧
    (categoryOrderFn "media" = 0 ∧ categoryOrderFn "ai" = 1 ∧
     categoryOrderFn "productivity" = 2 ∧ categoryOrderFn "development" = 3 ∧
     categoryOrderFn "admin" = 4) ∧
    (Assemble
        [⟨"plex", ⟨"Plex", "https://plex.example.com", "media", "<svg/>",
            ["friends"], 10⟩, ⟨false, none⟩⟩,
         ⟨"gitea", ⟨"Gitea", "https://gitea.example.com", "development", "<svg/>",
            ["lldap_admin"], 20⟩, ⟨false, none⟩⟩,
         ⟨"openwebui", ⟨"OpenWebUI", "https://ai.example.com", "ai", "<svg/>",
            ["friends"], 10⟩, ⟨false, none⟩⟩]).entries.map AppEntry.id =
      ["plex", "openwebui", "gitea"] := by
  refine ⟨fun apps => ⟨List.perm_insertionSort _ _, ?_⟩, by decide, by decide⟩
  exact (assembleEntries_sorted apps).imp (fun {x y} hxy => (entryLE_iff x y).mp hxy)

/-- C3 counterexample. The input holds a resource of the unknown category
"custom" together with one of the known category "admin" (equal priority):
the unknown-category entry sorts first, not after the known one as the
claim states, because the Go map lookup yields rank 0 for "custom". -/
theorem C3_unknown_rank_counterexample :
    ("custom" ∉ knownCategories) ∧
    categoryOrderFn "custom" = 0 ∧
    (Assemble
        [⟨"aapp", ⟨"A", "u", "admin", "i", ["g"], 10⟩, ⟨false, none⟩⟩,
         ⟨"zapp", ⟨"Z", "u", "custom", "i", ["g"], 10⟩, ⟨false, none⟩⟩]).entries.map
      AppEntry.id = ["zapp", "aapp"] ∧
    ¬((Assemble
        [⟨"aapp", ⟨"A", "u", "admin", "i", ["g"], 10⟩, ⟨false, none⟩⟩,
         ⟨"zapp", ⟨"Z", "u", "custom", "i", ["g"], 10⟩, ⟨false, none⟩⟩]).entries.map
      AppEntry.id = ["aapp", "zapp"]) := by decide

/-- C3 amended. A resource whose category is outside the fixed enumerated
set receives the Go map zero value rank 0 — the same rank as "media" — so
in the assembled order it never comes after an entry of a nonzero-ranked
known category (ai, productivity, development, admin): everything that
precedes an unknown-category entry has rank 0 as well. -/
theorem C3_unknown_rank_amended :
    (∀ c : String, c ∉ knownCategories → categoryOrderFn c = 0) ∧
    (∀ apps : List DashboardApp,
        (Assemble apps).entries.Pairwise (fun x y =>
          y.category ∉ knownCategories → categoryOrderFn x.category = 0)) := by
  refine ⟨categoryOrderFn_unknown, fun apps => ?_⟩
  refine (assembleEntries_sorted apps).imp (fun {x y} hxy hyu => ?_)
  have hy0 : categoryOrderFn y.category = 0 := categoryOrderFn_unknown _ hyu
  rcases (entryLE_iff x y).mp hxy with h | ⟨h, _⟩
  · rw [hy0] at h
    exact absurd h (Nat.not_lt_zero _)
  · rw [hy0] at h
    exact h

/-- C3 amended, applied to the unknown category "custom". -/
theorem C3_unknown_rank_amended_witness :
    ("custom" ∉ knownCategories) ∧ categoryOrderFn "custom" = 0 :=
  ⟨by decide, C3_unknown_rank_amended.1 "custom" (by decide)⟩

/-- C7. Default priority: a resource declaring the unset sentinel priority
0 derives an Entry with priority exactly 100, and every other declared
field (plus the identity) is copied verbatim. -/
theorem C7_default_priority (app : DashboardApp) (h : app.spec.priority = 0) :
    (toEntry app).priority = 100 ∧
    (toEntry app).id = app.name ∧
    (toEntry app).name = app.spec.name ∧
    (toEntry app).url = app.spec.url ∧
    (toEntry app).category = app.spec.category ∧
    (toEntry app).icon = app.spec.icon ∧
    (toEntry app).groups = app.spec.groups := by
  simp [toEntry, h]

/-- C7 applied to a concrete resource with priority omitted (zero). -/
theorem C7_default_priority_witness :
    (toEntry ⟨"app1", ⟨"App1", "https://a", "admin", "i", ["g"], 0⟩,
        ⟨false, none⟩⟩).priority = 100 ∧
    (toEntry ⟨"app1", ⟨"App1", "https://a", "admin", "i", ["g"], 0⟩,
        ⟨false, none⟩⟩).id = "app1" ∧
    (toEntry ⟨"app1", ⟨"App1", "https://a", "admin", "i", ["g"], 0⟩,
        ⟨false, none⟩⟩).name = "App1" ∧
    (toEntry ⟨"app1", ⟨"App1", "https://a", "admin", "i", ["g"], 0⟩,
        ⟨false, none⟩⟩).url = "https://a" ∧
    (toEntry ⟨"app1", ⟨"App1", "https://a", "admin", "i", ["g"], 0⟩,
        ⟨false, none⟩⟩).category = "admin" ∧
    (toEntry ⟨"app1", ⟨"App1", "https://a", "admin", "i", ["g"], 0⟩,
        ⟨false, none⟩⟩).icon = "i" ∧
    (toEntry ⟨"app1", ⟨"App1", "https://a", "admin", "i", ["g"], 0⟩,
        ⟨false, none⟩⟩).groups = ["g"] :=
  C7_default_priority _ rfl

/-- C9 (implicit). Nonzero priorities, negative ones included, pass through
verbatim; only the exact value 0 is rewritten to 100, so a declared 0 is
never preserved and no lower bound is imposed. -/
theorem C9_nonzero_priority_passthrough :
    (∀ app : DashboardApp, app.spec.priority ≠ 0 →
        (toEntry app).priority = app.spec.priority) ∧
    (∀ app : DashboardApp, app.spec.priority = 0 → (toEntry app).priority = 100) := by
  constructor
  · intro app h
    simp [toEntry, h]
  · intro app h
    simp [toEntry, h]

/-- C9 applied to a concrete resource with the negative priority -5. -/
theorem C9_nonzero_priority_passthrough_witness :
    (toEntry ⟨"n", ⟨"N", "u", "media", "i", ["g"], -5⟩, ⟨false, none⟩⟩).priority = -5 :=
  C9_nonzero_priority_passthrough.1 _ (by decide)

/-- C6. Empty-input no-op: with an empty collection (and a successful
list call) the pass touches neither the artifact nor any status and
returns success with no requeue. -/
theorem C6_empty_input_noop (cmName cmNs : String) (st : StoreState) (f : Faults)
    (now : Nat) (he : st.apps = []) (hl : f.listErr = none) :
    Reconcile cmName cmNs st f now =
      { apps := st.apps, cm := st.cm, cmAction := CMWriteAction.skipped
        statusAttempted := [], statusSucceeded := [], requeueAfter := 0, err := none } := by
  unfold Reconcile
  rw [hl, he]
  rfl

/-- C6 applied to a concrete empty store (one stored artifact left as is). -/
theorem C6_empty_input_noop_witness :
    Reconcile "duro-apps" "duro"
        ⟨[], some (mkConfigMap "duro-apps" "duro" "old-body" "old-hash")⟩ noFaults 7 =
      { apps := [], cm := some (mkConfigMap "duro-apps" "duro" "old-body" "old-hash")
        cmAction := CMWriteAction.skipped, statusAttempted := [], statusSucceeded := []
        requeueAfter := 0, err := none } :=
  C6_empty_input_noop "duro-apps" "duro" _ noFaults 7 rfl rfl

/-- C8. Hash-body pairing: whenever `updateAppsConfig` performs a write
(create or update), the resulting stored object carries the written body
under `apps.json` and, in the same object, the config-hash annotation equal
to the SHA-256 hex digest of that body. -/
theorem C8_hash_body_pairing (cmName cmNs : String) (existing? : Option ConfigMap)
    (appsJSON : String)
    (h : (updateAppsConfig cmName cmNs existing? none none appsJSON).2.1 ≠
      CMWriteAction.skipped) :
    ∃ c : ConfigMap,
      (updateAppsConfig cmName cmNs existing? none none appsJSON).1 = some c ∧
      lookupA c.data "apps.json" = some appsJSON ∧
      lookupA c.annotations configHashKey = some (computeHash appsJSON) := by
  cases existing? with
  | none =>
    refine ⟨mkConfigMap cmName cmNs appsJSON (computeHash appsJSON), rfl, ?_, ?_⟩
    · simp [mkConfigMap, lookupA]
    · simp [mkConfigMap, lookupA]
  | some existing =>
    by_cases hh : (lookupA existing.annotations configHashKey).getD "" = computeHash appsJSON
    · exact absurd (by simp [updateAppsConfig, hh]) h
    · refine ⟨{ existing with
          data := [("apps.json", appsJSON)]
          labels := insertA existing.labels managedByKey "duro-operator"
          annotations := insertA existing.annotations configHashKey
            (computeHash appsJSON) }, by simp [updateAppsConfig, hh], ?_, ?_⟩
      · simp [lookupA]
      · simp [lookupA_insertA_self]

/-- C8 applied to a concrete create (artifact absent). -/
theorem C8_hash_body_pairing_witness :
    ∃ c : ConfigMap,
      (updateAppsConfig "duro-apps" "duro" none none none "[]").1 = some c ∧
      lookupA c.data "apps.json" = some "[]" ∧
      lookupA c.annotations configHashKey = some (computeHash "[]") :=
  C8_hash_body_pairing "duro-apps" "duro" none "[]" (by decide)

/-- C10 (implicit). Frame effect of an artifact update: on the update path
the data map is replaced by the single `apps.json` binding, while the name,
namespace and every label other than the managed-by label and every
annotation other than the config-hash annotation keep their previous
values. -/
theorem C10_update_frame (cmName cmNs : String) (existing : ConfigMap) (appsJSON : String)
    (h : (lookupA existing.annotations configHashKey).getD "" ≠ computeHash appsJSON) :
    ∃ c : ConfigMap,
      updateAppsConfig cmName cmNs (some existing) none none appsJSON =
        (some c, CMWriteAction.updated, none) ∧
      c.data = [("apps.json", appsJSON)] ∧
      c.name = existing.name ∧
      c.ns = existing.ns ∧
      lookupA c.labels managedByKey = some "duro-operator" ∧
      (∀ k, k ≠ managedByKey → lookupA c.labels k = lookupA existing.labels k) ∧
      lookupA c.annotations configHashKey = some (computeHash appsJSON) ∧
      (∀ k, k ≠ configHashKey →
        lookupA c.annotations k = lookupA existing.annotations k) := by
  refine ⟨{ existing with
      data := [("apps.json", appsJSON)]
      labels := insertA existing.labels managedByKey "duro-operator"
      annotations := insertA existing.annotations configHashKey (computeHash appsJSON) },
    by simp [updateAppsConfig, h], rfl, rfl, rfl, ?_, ?_, ?_, ?_⟩
  · exact lookupA_insertA_self _ _ _
  · exact fun k hk => lookupA_insertA_ne _ _ _ _ hk
  · exact lookupA_insertA_self _ _ _
  · exact fun k hk => lookupA_insertA_ne _ _ _ _ hk

/-- C10 applied to a concrete artifact carrying an extra data key, an extra
label and an extra annotation, with a stale stored hash. -/
theorem C10_update_frame_witness :
    ∃ c : ConfigMap,
      updateAppsConfig "duro-apps" "duro"
          (some ⟨"duro-apps", "duro", [("team", "infra")],
            [("note", "keep"), (configHashKey, "stale")],
            [("apps.json", "old"), ("extra", "x")]⟩) none none "[]" =
        (some c, CMWriteAction.updated, none) ∧
      c.data = [("apps.json", "[]")] ∧
      c.name = "duro-apps" ∧
      c.ns = "duro" ∧
      lookupA c.labels managedByKey = some "duro-operator" ∧
      (∀ k, k ≠ managedByKey →
        lookupA c.labels k = lookupA [("team", "infra")] k) ∧
      lookupA c.annotations configHashKey = some (computeHash "[]") ∧
      (∀ k, k ≠ configHashKey →
        lookupA c.annotations k = lookupA [("note", "keep"), (configHashKey, "stale")] k) :=
  C10_update_frame "duro-apps" "duro" _ "[]" (by decide)

/-- C4. Partial-failure isolation: in a fault-free (up to status writes)
pass over a nonempty collection, a status write is attempted for every
resource; every resource whose own status write succeeds ends ready with
the sync timestamp; and if at least one status write fails, the pass ends
as a 10-second requeue with no error (never a full failure). -/
theorem C4_partial_failure_isolation (cmName cmNs : String) (st : StoreState) (f : Faults)
    (now : Nat) (hl : f.listErr = none) (ha : f.assembleErr = none)
    (hg : f.getErr = none) (hw : f.cmWriteErr = none) (hne : st.apps ≠ []) :
    (Reconcile cmName cmNs st f now).statusAttempted = st.apps.map (fun a => a.name) ∧
    (∀ a ∈ st.apps, f.statusErr a.name = none →
        ({ a with status := syncedStatus now } : DashboardApp) ∈
          (Reconcile cmName cmNs st f now).apps) ∧
    (Reconcile cmName cmNs st f now).statusSucceeded =
      (st.apps.filter (fun a => (f.statusErr a.name).isNone)).map (fun a => a.name) ∧
    ((∃ a ∈ st.apps, (f.statusErr a.name).isSome) →
        (Reconcile cmName cmNs st f now).requeueAfter = 10 ∧
        (Reconcile cmName cmNs st f now).err = none) ∧
    ((∀ a ∈ st.apps, f.statusErr a.name = none) →
        (Reconcile cmName cmNs st f now).requeueAfter = 0 ∧
        (Reconcile cmName cmNs st f now).err = none) := by
  rw [reconcile_noFault_eq cmName cmNs st f now hl ha hg hw hne]
  refine ⟨rfl, ?_, rfl, ?_, ?_⟩
  · intro a ha' hnone
    have hs : (f.statusErr a.name).isSome = false := by rw [hnone]; rfl
    exact List.mem_map.mpr ⟨a, ha', by simp [hs]⟩
  · rintro ⟨a, ha', hsome⟩
    have hmem : a ∈ st.apps.filter (fun a => (f.statusErr a.name).isSome) :=
      List.mem_filter.mpr ⟨ha', hsome⟩
    have hne' : (st.apps.filter (fun a => (f.statusErr a.name).isSome)).map
        (fun a => a.name) ≠ [] := by
      simp only [ne_eq, List.map_eq_nil_iff]
      exact fun hnil => (hnil ▸ List.ne_nil_of_mem hmem) rfl
    simp [isEmpty_false_of_ne_nil hne']
  · intro hall
    have hnil : st.apps.filter (fun a => (f.statusErr a.name).isSome) = [] := by
      refine List.filter_eq_nil_iff.mpr (fun a ha' => ?_)
      rw [hall a ha']
      exact fun hfalse => by simp at hfalse
    simp [hnil]

/-- C4 applied to two concrete resources where exactly the second status
write fails. -/
theorem C4_partial_failure_isolation_witness :
    (Reconcile "duro-apps" "duro"
        ⟨[⟨"a", ⟨"A", "u", "media", "i", ["g"], 10⟩, ⟨false, none⟩⟩,
          ⟨"b", ⟨"B", "u", "admin", "i", ["g"], 10⟩, ⟨false, none⟩⟩], none⟩
        { noFaults with statusErr := fun n =>
            if n = "b" then some (GoError.external "conflict") else none } 7).statusAttempted =
      ["a", "b"] ∧
    (Reconcile "duro-apps" "duro"
        ⟨[⟨"a", ⟨"A", "u", "media", "i", ["g"], 10⟩, ⟨false, none⟩⟩,
          ⟨"b", ⟨"B", "u", "admin", "i", ["g"], 10⟩, ⟨false, none⟩⟩], none⟩
        { noFaults with statusErr := fun n =>
            if n = "b" then some (GoError.external "conflict") else none } 7).requeueAfter = 10 ∧
    (Reconcile "duro-apps" "duro"
        ⟨[⟨"a", ⟨"A", "u", "media", "i", ["g"], 10⟩, ⟨false, none⟩⟩,
          ⟨"b", ⟨"B", "u", "admin", "i", ["g"], 10⟩, ⟨false, none⟩⟩], none⟩
        { noFaults with statusErr := fun n =>
            if n = "b" then some (GoError.external "conflict") else none } 7).err = none ∧
    (⟨"a", ⟨"A", "u", "media", "i", ["g"], 10⟩, ⟨true, some 7⟩⟩ : DashboardApp) ∈
      (Reconcile "duro-apps" "duro"
        ⟨[⟨"a", ⟨"A", "u", "media", "i", ["g"], 10⟩, ⟨false, none⟩⟩,
          ⟨"b", ⟨"B", "u", "admin", "i", ["g"], 10⟩, ⟨false, none⟩⟩], none⟩
        { noFaults with statusErr := fun n =>
            if n = "b" then some (GoError.external "conflict") else none } 7).apps := by
  have h := C4_partial_failure_isolation "duro-apps" "duro"
    ⟨[⟨"a", ⟨"A", "u", "media", "i", ["g"], 10⟩, ⟨false, none⟩⟩,
      ⟨"b", ⟨"B", "u", "admin", "i", ["g"], 10⟩, ⟨false, none⟩⟩], none⟩
    { noFaults with statusErr := fun n =>
        if n = "b" then some (GoError.external "conflict") else none } 7
    rfl rfl rfl rfl (by decide)
  have hfail := h.2.2.2.1 ⟨⟨"b", ⟨"B", "u", "admin", "i", ["g"], 10⟩, ⟨false, none⟩⟩,
    by decide, by decide⟩
  exact ⟨h.1, hfail.1, hfail.2,
    h.2.1 ⟨"a", ⟨"A", "u", "media", "i", ["g"], 10⟩, ⟨false, none⟩⟩ (by decide) (by decide)⟩

/-- C5 counterexample. The artifact write fails with a non-retryable
(permanent) error, yet the engine schedules a 30-second requeue and
surfaces no error — `Reconcile` never classifies artifact-write failures
with `ShouldRetry`, contradicting the claim that a non-retryable error is
surfaced without an automatic retry. -/
theorem C5_writefail_counterexample :
    ShouldRetry (GoError.opError ErrorType.permanent "boom") = false ∧
    (Reconcile "duro-apps" "duro"
        ⟨[⟨"a", ⟨"A", "u", "media", "i", ["g"], 10⟩, ⟨false, none⟩⟩], none⟩
        { listErr := none, assembleErr := none, getErr := none
          cmWriteErr := some (GoError.opError ErrorType.permanent "boom")
          statusErr := fun _ => none } 3).requeueAfter = 30 ∧
    (Reconcile "duro-apps" "duro"
        ⟨[⟨"a", ⟨"A", "u", "media", "i", ["g"], 10⟩, ⟨false, none⟩⟩], none⟩
        { listErr := none, assembleErr := none, getErr := none
          cmWriteErr := some (GoError.opError ErrorType.permanent "boom")
          statusErr := fun _ => none } 3).err = none ∧
    (Reconcile "duro-apps" "duro"
        ⟨[⟨"a", ⟨"A", "u", "media", "i", ["g"], 10⟩, ⟨false, none⟩⟩], none⟩
        { listErr := none, assembleErr := none, getErr := none
          cmWriteErr := some (GoError.opError ErrorType.permanent "boom")
          statusErr := fun _ => none } 3).statusAttempted = [] := by
  refine ⟨rfl, ?_, ?_, ?_⟩ <;> rfl

/-- C5 amended. Any failure during assembly or the artifact write aborts
all status updates (no status is attempted, the stored resources are
untouched). An assembly failure is classified with `ShouldRetry`: a
retryable one schedules the fixed 30-second requeue with no surfaced
error, a non-retryable one is surfaced as the pass error with no requeue.
An artifact-write failure is not classified: whatever the error, the
engine schedules the 30-second requeue and surfaces nothing. -/
theorem C5_abort_and_classify :
    (∀ (cmName cmNs : String) (st : StoreState) (f : Faults) (now : Nat) (e : GoError),
        f.listErr = none → st.apps ≠ [] → f.assembleErr = some e →
        (Reconcile cmName cmNs st f now).apps = st.apps ∧
        (Reconcile cmName cmNs st f now).cm = st.cm ∧
        (Reconcile cmName cmNs st f now).cmAction = CMWriteAction.skipped ∧
        (Reconcile cmName cmNs st f now).statusAttempted = [] ∧
        (ShouldRetry e = true →
          (Reconcile cmName cmNs st f now).requeueAfter = 30 ∧
          (Reconcile cmName cmNs st f now).err = none) ∧
        (ShouldRetry e = false →
          (Reconcile cmName cmNs st f now).requeueAfter = 0 ∧
          (Reconcile cmName cmNs st f now).err = some e)) ∧
    (∀ (cmName cmNs : String) (st : StoreState) (f : Faults) (now : Nat),
        f.listErr = none → st.apps ≠ [] → f.assembleErr = none →
        (updateAppsConfig cmName cmNs st.cm f.getErr f.cmWriteErr
          (Assemble st.apps).appsJSON).2.2 ≠ none →
        (Reconcile cmName cmNs st f now).apps = st.apps ∧
        (Reconcile cmName cmNs st f now).statusAttempted = [] ∧
        (Reconcile cmName cmNs st f now).requeueAfter = 30 ∧
        (Reconcile cmName cmNs st f now).err = none) := by
  constructor
  · intro cmName cmNs st f now e hl hne ha
    have hempty := isEmpty_false_of_ne_nil hne
    unfold Reconcile
    rw [hl, ha]
    by_cases hr : ShouldRetry e = true
    · simp [hempty, hr]
    · simp [hempty, hr]
  · intro cmName cmNs st f now hl hne ha hu
    have hempty := isEmpty_false_of_ne_nil hne
    rcases hw : updateAppsConfig cmName cmNs st.cm f.getErr f.cmWriteErr
      (Assemble st.apps).appsJSON with ⟨cm2, act2, err2⟩
    rw [hw] at hu
    cases err2 with
    | none => exact absurd rfl hu
    | some e2 =>
      unfold Reconcile
      rw [hl, ha]
      simp [hempty, hw]

/-- C5 amended, applied to a concrete transient assembly failure. -/
theorem C5_abort_and_classify_witness :
    (Reconcile "duro-apps" "duro"
        ⟨[⟨"a", ⟨"A", "u", "media", "i", ["g"], 10⟩, ⟨false, none⟩⟩], none⟩
        { listErr := none
          assembleErr := some (GoError.opError ErrorType.transient "timeout")
          getErr := none, cmWriteErr := none, statusErr := fun _ => none } 3).apps =
      [⟨"a", ⟨"A", "u", "media", "i", ["g"], 10⟩, ⟨false, none⟩⟩] ∧
    (Reconcile "duro-apps" "duro"
        ⟨[⟨"a", ⟨"A", "u", "media", "i", ["g"], 10⟩, ⟨false, none⟩⟩], none⟩
        { listErr := none
          assembleErr := some (GoError.opError ErrorType.transient "timeout")
          getErr := none, cmWriteErr := none, statusErr := fun _ => none } 3).cm = none ∧
    (Reconcile "duro-apps" "duro"
        ⟨[⟨"a", ⟨"A", "u", "media", "i", ["g"], 10⟩, ⟨false, none⟩⟩], none⟩
        { listErr := none
          assembleErr := some (GoError.opError ErrorType.transient "timeout")
          getErr := none, cmWriteErr := none, statusErr := fun _ => none } 3).cmAction =
      CMWriteAction.skipped ∧
    (Reconcile "duro-apps" "duro"
        ⟨[⟨"a", ⟨"A", "u", "media", "i", ["g"], 10⟩, ⟨false, none⟩⟩], none⟩
        { listErr := none
          assembleErr := some (GoError.opError ErrorType.transient "timeout")
          getErr := none, cmWriteErr := none, statusErr := fun _ => none } 3).statusAttempted =
      [] ∧
    (Reconcile "duro-apps" "duro"
        ⟨[⟨"a", ⟨"A", "u", "media", "i", ["g"], 10⟩, ⟨false, none⟩⟩], none⟩
        { listErr := none
          assembleErr := some (GoError.opError ErrorType.transient "timeout")
          getErr := none, cmWriteErr := none, statusErr := fun _ => none } 3).requeueAfter =
      30 ∧
    (Reconcile "duro-apps" "duro"
        ⟨[⟨"a", ⟨"A", "u", "media", "i", ["g"], 10⟩, ⟨false, none⟩⟩], none⟩
        { listErr := none
          assembleErr := some (GoError.opError ErrorType.transient "timeout")
          getErr := none, cmWriteErr := none, statusErr := fun _ => none } 3).err = none := by
  have h := C5_abort_and_classify.1 "duro-apps" "duro"
    ⟨[⟨"a", ⟨"A", "u", "media", "i", ["g"], 10⟩, ⟨false, none⟩⟩], none⟩
    { listErr := none
      assembleErr := some (GoError.opError ErrorType.transient "timeout")
      getErr := none, cmWriteErr := none, statusErr := fun _ => none } 3
    (GoError.opError ErrorType.transient "timeout") rfl (by decide) rfl
  have hr := h.2.2.2.2.1 rfl
  exact ⟨h.1, h.2.1, h.2.2.1, h.2.2.2.1, hr.1, hr.2⟩

/-- C1. Idempotent publish: a stored artifact whose hash annotation equals
the hash of the fresh document is left untouched (skip, no write); an
absent artifact is created with body and hash; a differing hash causes an
update; and over an unchanged collection a pass starting from an absent
artifact performs exactly one artifact write while the immediately
following pass performs zero (whatever the starting artifact was, the pass
after a fault-free pass writes nothing). -/
theorem C1_idempotent_publish :
    (∀ (cmName cmNs : String) (existing : ConfigMap) (appsJSON : String),
        (lookupA existing.annotations configHashKey).getD "" = computeHash appsJSON →
        updateAppsConfig cmName cmNs (some existing) none none appsJSON =
          (some existing, CMWriteAction.skipped, none)) ∧
    (∀ (cmName cmNs appsJSON : String),
        updateAppsConfig cmName cmNs none none none appsJSON =
          (some (mkConfigMap cmName cmNs appsJSON (computeHash appsJSON)),
            CMWriteAction.created, none)) ∧
    (∀ (cmName cmNs : String) (existing : ConfigMap) (appsJSON : String),
        (lookupA existing.annotations configHashKey).getD "" ≠ computeHash appsJSON →
        (updateAppsConfig cmName cmNs (some existing) none none appsJSON).2.1 =
          CMWriteAction.updated) ∧
    (∀ (cmName cmNs : String) (st : StoreState) (f : Faults) (now : Nat),
        f.listErr = none → f.assembleErr = none → f.getErr = none →
        f.cmWriteErr = none → st.apps ≠ [] → st.cm = none →
        writeCount (Reconcile cmName cmNs st f now).cmAction = 1) ∧
    (∀ (cmName cmNs : String) (st : StoreState) (f : Faults) (now now2 : Nat),
        f.listErr = none → f.assembleErr = none → f.getErr = none →
        f.cmWriteErr = none → st.apps ≠ [] →
        writeCount (Reconcile cmName cmNs
          (storeAfter (Reconcile cmName cmNs st f now)) f now2).cmAction = 0) := by
  refine ⟨?_, ?_, ?_, ?_, ?_⟩
  · intro cmName cmNs existing appsJSON h
    simp [updateAppsConfig, h]
  · intro cmName cmNs appsJSON
    rfl
  · intro cmName cmNs existing appsJSON h
    simp [updateAppsConfig, h]
  · intro cmName cmNs st f now hl ha hg hw hne hcm
    rw [reconcile_noFault_eq cmName cmNs st f now hl ha hg hw hne, hcm]
    rfl
  · intro cmName cmNs st f now now2 hl ha hg hw hne
    have h1 := reconcile_noFault_eq cmName cmNs st f now hl ha hg hw hne
    obtain ⟨c, hc, hch⟩ := updateAppsConfig_noFault_hash cmName cmNs st.cm
      (Assemble st.apps).appsJSON
    have hne2 : (storeAfter (Reconcile cmName cmNs st f now)).apps ≠ [] := by
      rw [h1]
      simp only [storeAfter, ne_eq, List.map_eq_nil_iff]
      exact hne
    have hassemble : Assemble (storeAfter (Reconcile cmName cmNs st f now)).apps =
        Assemble st.apps := by
      rw [h1]
      show Assemble (st.apps.map (fun a => if (f.statusErr a.name).isSome then a
        else { a with status := syncedStatus now })) = Assemble st.apps
      unfold Assemble
      rw [assembleEntries_statusMap]
    have hcm2 : (storeAfter (Reconcile cmName cmNs st f now)).cm = some c := by
      rw [h1]
      exact hc
    rw [reconcile_noFault_eq cmName cmNs _ f now2 hl ha hg hw hne2]
    show writeCount (updateAppsConfig cmName cmNs
      (storeAfter (Reconcile cmName cmNs st f now)).cm none none
      (Assemble (storeAfter (Reconcile cmName cmNs st f now)).apps).appsJSON).2.1 = 0
    rw [hcm2, hassemble]
    simp [updateAppsConfig, hch, writeCount]

/-- C1 applied to a concrete one-resource store with no stored artifact:
the first pass creates (one write), the second pass skips (zero writes). -/
theorem C1_idempotent_publish_witness :
    writeCount (Reconcile "duro-apps" "duro"
      ⟨[⟨"a", ⟨"A", "u", "media", "i", ["g"], 10⟩, ⟨false, none⟩⟩], none⟩
      noFaults 7).cmAction = 1 ∧
    writeCount (Reconcile "duro-apps" "duro"
      (storeAfter (Reconcile "duro-apps" "duro"
        ⟨[⟨"a", ⟨"A", "u", "media", "i", ["g"], 10⟩, ⟨false, none⟩⟩], none⟩
        noFaults 7)) noFaults 8).cmAction = 0 :=
  ⟨C1_idempotent_publish.2.2.2.1 "duro-apps" "duro"
      ⟨[⟨"a", ⟨"A", "u", "media", "i", ["g"], 10⟩, ⟨false, none⟩⟩], none⟩
      noFaults 7 rfl rfl rfl rfl (by decide) rfl,
    C1_idempotent_publish.2.2.2.2 "duro-apps" "duro"
      ⟨[⟨"a", ⟨"A", "u", "media", "i", ["g"], 10⟩, ⟨false, none⟩⟩], none⟩
      noFaults 7 8 rfl rfl rfl rfl (by decide)⟩

end Duro
